import Mathlib

/-!
Verification development for the antrea-capture repository: a node-resident
controller that keeps one tcpdump capture process per annotated pod in sync
with the pod's `tcpdump.antrea.io` annotation.

The repository contains several iterations of the same controller:
* `Controller` embeds the primary `src/antrea-capture/controller.go`
  (first document of that file);
* `Part003` embeds the variant in `src/unnamed/part_003`
  (`onPodAddOrUpdate`, per-session `maxFiles` and `captureGlob`);
* `MainB` embeds the nsenter variant that is the second document inside
  `src/antrea-capture/main.go`.

Processes are modelled by a numeric instance identity `sid` (standing for
the `*exec.Cmd` / `*captureProcess` pointer identity).  The behaviour of a
process is given by an environment `termDelay : Nat → Nat`, the number of
seconds between receiving SIGTERM and exiting on its own (a "stubborn"
process that ignores SIGTERM has a delay larger than the grace period;
SIGKILL is always immediately effective, as the code assumes).  Side
effects (signals, waits, spawns, file-glob cleanups, lock operations) are
recorded in an event trace.
-/

set_option autoImplicit false

/-- Observable events of the controller: registry-lock operations, process
signals (`group = true` means the signal goes to the whole process group,
i.e. `syscall.Kill(-pid, ...)`), waits, exit confirmations, subprocess
spawns and artifact-glob cleanups.  `waitGrace sid secs` is the bounded
`select { <-done; <-time.After(grace) }` wait and records how long it
actually blocked; `waitBlock` is the unbounded `<-done` after SIGKILL
(zero time, kill is assumed immediately effective). -/
inductive Ev where
  | lock : Ev
  | unlock : Ev
  | spawn (sid : Nat) (args : List String) : Ev
  | spawnFailed (sid : Nat) : Ev
  | sigterm (group : Bool) (sid : Nat) : Ev
  | sigkill (group : Bool) (sid : Nat) : Ev
  | waitGrace (sid : Nat) (secs : Nat) : Ev
  | waitBlock (sid : Nat) : Ev
  | exitConfirmed (sid : Nat) : Ev
  | cleanGlob (pattern : String) : Ev
  deriving DecidableEq, Repr

/-- Seconds an event blocks for; only waits take time in the model. -/
def evDur : Ev → Nat
  | .waitGrace _ secs => secs
  | _ => 0

/-- Total blocking time of a trace. -/
def totalDur (tr : List Ev) : Nat := (tr.map evDur).sum

/-- Number of artifact-cleanup invocations in a trace. -/
def countClean : List Ev → Nat
  | [] => 0
  | .cleanGlob _ :: tr => countClean tr + 1
  | _ :: tr => countClean tr

/-- Number of exit confirmations in a trace. -/
def countExit : List Ev → Nat
  | [] => 0
  | .exitConfirmed _ :: tr => countExit tr + 1
  | _ :: tr => countExit tr

/-- Number of SIGKILL events in a trace. -/
def countKill : List Ev → Nat
  | [] => 0
  | .sigkill _ _ :: tr => countKill tr + 1
  | _ :: tr => countKill tr

/-- Number of unbounded post-kill waits in a trace. -/
def countBlock : List Ev → Nat
  | [] => 0
  | .waitBlock _ :: tr => countBlock tr + 1
  | _ :: tr => countBlock tr

/-- Does some event satisfying `p` occur while the registry lock is held
(`d` is the current lock depth)? -/
def existsUnderLock (p : Ev → Bool) : Nat → List Ev → Bool
  | _, [] => false
  | d, .lock :: tr => existsUnderLock p (d + 1) tr
  | d, .unlock :: tr => existsUnderLock p (d - 1) tr
  | d, e :: tr => (decide (0 < d) && p e) || existsUnderLock p d tr

/-- Is the event a (bounded or unbounded) blocking wait? -/
def isWait : Ev → Bool
  | .waitGrace _ _ => true
  | .waitBlock _ => true
  | _ => false

/-- Is the event a subprocess spawn attempt (`cmd.Start()`)? -/
def isSpawn : Ev → Bool
  | .spawn _ _ => true
  | .spawnFailed _ => true
  | _ => false

/-- Go-map lookup on an association list (`m[k]`). -/
def mapLookup {α : Type} : List (String × α) → String → Option α
  | [], _ => none
  | (ka, v) :: tl, k => if ka = k then some v else mapLookup tl k

/-- Go-map `delete(m, k)`. -/
def mapErase {α : Type} (m : List (String × α)) (k : String) : List (String × α) :=
  m.filter (fun kv => kv.1 ≠ k)

/-- Go-map assignment `m[k] = v`. -/
def mapInsert {α : Type} (m : List (String × α)) (k : String) (v : α) :
    List (String × α) :=
  (k, v) :: mapErase m k

/-- Number of entries stored under key `k`. -/
def countKey {α : Type} (m : List (String × α)) (k : String) : Nat :=
  (m.filter (fun kv => kv.1 = k)).length

/-- Value of characters `0`-`9`, folding a digit list to a number. -/
def digitsToNat (l : List Char) : Nat :=
  l.foldl (fun acc c => acc * 10 + (c.toNat - 48)) 0

/-- Largest value of Go's 64-bit `int`. -/
def int64Max : Int := 9223372036854775807

/-- Smallest value of Go's 64-bit `int`. -/
def int64Min : Int := -9223372036854775808

/-- Digits-with-sign core of `strconv.Atoi`: empty or non-digit input and
out-of-range values yield `none` (Go returns a non-nil error there). -/
def goAtoiCore (l : List Char) (sign : Int) : Option Int :=
  if l = [] then none
  else if l.all Char.isDigit then
    let v : Int := sign * (digitsToNat l : Int)
    if int64Min ≤ v ∧ v ≤ int64Max then some v else none
  else none

/-- `strconv.Atoi`: optional sign followed by at least one digit. -/
def goAtoi (s : String) : Option Int :=
  match s.data with
  | '+' :: rest => goAtoiCore rest 1
  | '-' :: rest => goAtoiCore rest (-1)
  | l => goAtoiCore l 1

/-- The pod fields the controller reads: namespace, name, annotations and
(for the part_003 variant) the pod IP. -/
structure Pod where
  ns : String
  name : String
  annotations : List (String × String)
  podIP : String := ""
  deriving DecidableEq, Repr

/-- The watched annotation key `tcpdump.antrea.io`. -/
def annotationKey : String := "tcpdump.antrea.io"

/-- `pod.Annotations[annotationKey]`: Go map reads of a missing key give
the zero value `""`. -/
def annotationOf (pod : Pod) : String :=
  (mapLookup pod.annotations annotationKey).getD ""

/-- Registry key `pod.Namespace + "/" + pod.Name`. -/
def podKey (pod : Pod) : String := pod.ns ++ "/" ++ pod.name

/-- A pod with the capture annotation removed (annotation-removal event). -/
def stripAnnot (pod : Pod) : Pod :=
  { pod with annotations := mapErase pod.annotations annotationKey }

/-- Boolean list-prefix test. -/
def chPrefix : List Char → List Char → Bool
  | [], _ => true
  | _ :: _, [] => false
  | a :: as, b :: bs => (a = b) && chPrefix as bs

/-- `filepath.Glob` on a pattern of the form `base ++ "*"`: matches files
that extend `base` without introducing a path separator. -/
def globStarMatch (base f : String) : Bool :=
  chPrefix base.data f.data && (f.data.drop base.data.length).all (fun c => c ≠ '/')

/-- Files tcpdump run with `-w capFile -C 1 -W n` can produce: `capFile`
itself or `capFile` followed by a numeric rotation suffix. -/
def producesFile (capFile f : String) : Bool :=
  chPrefix capFile.data f.data && (f.data.drop capFile.data.length).all Char.isDigit

/-- `podKey[strings.LastIndex(podKey, "/")+1:]`: the suffix after the last
separator (the whole string when there is none). -/
def lastSegment (s : String) : String :=
  String.mk ((s.data.reverse.takeWhile (fun c => c ≠ '/')).reverse)

namespace Controller

/-- `captureProcess` of `src/antrea-capture/controller.go`: the running
`*exec.Cmd` (instance identity `sid`; its argument list carries `maxFiles`
and the output file derived from `podName`) plus its stop channel. -/
structure captureProcess where
  sid : Nat
  maxFiles : Int
  podName : String
  deriving DecidableEq, Repr

/-- The controller state the claims concern: the `captures` registry map. -/
structure CState where
  captures : List (String × captureProcess)
  deriving DecidableEq, Repr

/-- Grace period of `stopCaptureInternal`: `5 * time.Second`. -/
def gracePeriod : Nat := 5

/-- `fmt.Sprintf("/capture-%s.pcap", podName)` — derived from the pod name
only, the namespace is not used. -/
def captureFile (podName : String) : String := "/capture-" ++ podName ++ ".pcap"

/-- Base of the cleanup glob `fmt.Sprintf("/capture-%s.pcap*", podName)`
(the trailing `*` is the glob wildcard). -/
def cleanupPatternBase (key : String) : String :=
  "/capture-" ++ lastSegment key ++ ".pcap"

/-- The cleanup glob string passed to `filepath.Glob`. -/
def cleanupPattern (key : String) : String := cleanupPatternBase key ++ "*"

/-- tcpdump argument list built in `startCaptureInternal`. -/
def tcpdumpArgs (maxFiles : Int) (podName : String) : List String :=
  ["tcpdump", "-C", "1", "-W", toString maxFiles, "-w", captureFile podName,
   "-i", "any", "-n", "-Z", "root"]

/-- `startCaptureInternal` (controller.go:168-194), caller holds the lock:
re-check occupancy, spawn tcpdump in its own process group, register the
session on success.  The monitor goroutine it launches is `monitorExit`. -/
def startCaptureInternal (s : CState) (key podName : String) (maxFiles : Int)
    (freshSid : Nat) (spawnOk : Bool) : CState × List Ev :=
  match mapLookup s.captures key with
  | some _ => (s, [])
  | none =>
    if spawnOk then
      (⟨mapInsert s.captures key ⟨freshSid, maxFiles, podName⟩⟩,
        [.spawn freshSid (tcpdumpArgs maxFiles podName)])
    else (s, [.spawnFailed freshSid])

/-- The monitor goroutine of `startCaptureInternal` (controller.go:188-193):
after `cmd.Wait()` returns it takes the lock and deletes the registry entry
for `key` unconditionally — it never checks that the entry still refers to
its own process `sid`. -/
def monitorExit (s : CState) (key : String) (sid : Nat) : CState × List Ev :=
  (⟨mapErase s.captures key⟩, [.exitConfirmed sid, .lock, .unlock])

/-- Modelled from the spec: removal guarded by instance identity — the
monitor for process `sid` removes the entry only if the registry still
holds this exact process instance (spec §4.3); stated for comparison with
`monitorExit`, which the source actually implements. -/
def monitorExitSpec (s : CState) (key : String) (sid : Nat) : CState :=
  match mapLookup s.captures key with
  | some sp => if sp.sid = sid then ⟨mapErase s.captures key⟩ else s
  | none => s

/-- Signal/wait events of `stopCaptureInternal` (controller.go:212-221):
SIGTERM to the process group, bounded 5s wait; on timeout SIGKILL to the
group and an unbounded wait for the exit. -/
def stopEvs (termDelay : Nat → Nat) (sp : captureProcess) : List Ev :=
  if termDelay sp.sid ≤ gracePeriod then
    [.sigterm true sp.sid, .waitGrace sp.sid (termDelay sp.sid), .exitConfirmed sp.sid]
  else
    [.sigterm true sp.sid, .waitGrace sp.sid gracePeriod, .sigkill true sp.sid,
     .waitBlock sp.sid, .exitConfirmed sp.sid]

/-- `stopCaptureInternal` (controller.go:208-226), caller holds the lock:
run the termination protocol, then delete the registry entry and clean the
artifact files. -/
def stopCaptureInternal (termDelay : Nat → Nat) (s : CState) (key : String)
    (sp : captureProcess) : CState × List Ev :=
  (⟨mapErase s.captures key⟩, stopEvs termDelay sp ++ [.cleanGlob (cleanupPattern key)])

/-- `stopCapture` (controller.go:196-206): takes the lock, and — still
holding it — runs the whole of `stopCaptureInternal` for the looked-up
session, if any. -/
def stopCapture (termDelay : Nat → Nat) (s : CState) (key : String) :
    CState × List Ev :=
  match mapLookup s.captures key with
  | none => (s, [.lock, .unlock])
  | some sp =>
    let r := stopCaptureInternal termDelay s key sp
    (r.1, [.lock] ++ r.2 ++ [.unlock])

/-- `processPod` (controller.go:141-166): empty annotation → stop; parse
failure or non-positive value → stop; otherwise, under the lock, skip if a
session exists and start one if not. -/
def processPod (termDelay : Nat → Nat) (s : CState) (pod : Pod)
    (freshSid : Nat) (spawnOk : Bool) : CState × List Ev :=
  let key := podKey pod
  let ann := annotationOf pod
  if ann = "" then stopCapture termDelay s key
  else
    match goAtoi ann with
    | none => stopCapture termDelay s key
    | some n =>
      if n ≤ 0 then stopCapture termDelay s key
      else
        match mapLookup s.captures key with
        | some _ => (s, [.lock, .unlock])
        | none =>
          let r := startCaptureInternal s key pod.name n freshSid spawnOk
          (r.1, [.lock] ++ r.2 ++ [.unlock])

/-- `handlePodUpdate` (controller.go:118-130): reconcile only when the
annotation value changed; otherwise do nothing at all. -/
def handlePodUpdate (termDelay : Nat → Nat) (s : CState) (oldPod newPod : Pod)
    (freshSid : Nat) (spawnOk : Bool) : CState × List Ev :=
  if annotationOf oldPod ≠ annotationOf newPod then
    processPod termDelay s newPod freshSid spawnOk
  else (s, [])

/-- The `for podName, cap := range c.captures` loop of `Shutdown`
(controller.go:104-107): stop each registered session in turn, all under
the single registry lock. -/
def shutdownLoop (termDelay : Nat → Nat) :
    List (String × captureProcess) → CState → CState × List Ev
  | [], s => (s, [])
  | (k, sp) :: rest, s =>
    let r1 := stopCaptureInternal termDelay s k sp
    let r2 := shutdownLoop termDelay rest r1.1
    (r2.1, r1.2 ++ r2.2)

/-- `Shutdown` (controller.go:97-110): take the lock and stop every
registered capture sequentially before returning. -/
def Shutdown (termDelay : Nat → Nat) (s : CState) : CState × List Ev :=
  let r := shutdownLoop termDelay s.captures s
  (r.1, [.lock] ++ r.2 ++ [.unlock])

end Controller

namespace Part003

/-- `captureProcess` of `src/unnamed/part_003`: the running command
(instance identity `sid`), its `done` channel, the `maxFiles` the session
was started with and the stored cleanup glob. -/
structure captureProcess where
  sid : Nat
  maxFiles : Int
  captureGlob : String
  deriving DecidableEq, Repr

/-- Controller state of the part_003 variant. -/
structure CState where
  captures : List (String × captureProcess)
  deriving DecidableEq, Repr

/-- Grace period of `terminateProcessGroup`: `3 * time.Second`. -/
def gracePeriod : Nat := 3

/-- `fmt.Sprintf("/capture-%s-%s.pcap", pod.Namespace, pod.Name)` — this
variant derives the output file from namespace and name. -/
def captureFile (pod : Pod) : String :=
  "/capture-" ++ pod.ns ++ "-" ++ pod.name ++ ".pcap"

/-- tcpdump argument list of `startCapture` (filters on the pod IP). -/
def tcpdumpArgs (pod : Pod) (maxFiles : Int) : List String :=
  ["tcpdump", "-i", "any", "-U", "-C", "1", "-W", toString maxFiles,
   "-w", captureFile pod, "-Z", "root", "host", pod.podIP]

/-- `terminateProcessGroup` (part_003:166-180): if the `done` channel is
already closed (process already exited) do nothing; otherwise SIGTERM the
group, wait up to 3s, and on timeout SIGKILL the group and wait without
bound.  `exited sid` says whether `done` was already closed. -/
def terminateEvs (termDelay : Nat → Nat) (exited : Nat → Bool)
    (sp : captureProcess) : List Ev :=
  if exited sp.sid then []
  else if termDelay sp.sid ≤ gracePeriod then
    [.sigterm true sp.sid, .waitGrace sp.sid (termDelay sp.sid), .exitConfirmed sp.sid]
  else
    [.sigterm true sp.sid, .waitGrace sp.sid gracePeriod, .sigkill true sp.sid,
     .waitBlock sp.sid, .exitConfirmed sp.sid]

/-- `stopCaptureProcess` (part_003:158-164): terminate the process group,
then remove everything matching the session's stored glob. -/
def stopCaptureProcess (termDelay : Nat → Nat) (exited : Nat → Bool)
    (sp : captureProcess) : List Ev :=
  terminateEvs termDelay exited sp ++ [.cleanGlob sp.captureGlob]

/-- `stopCaptureForPodKey` (part_003:146-156): remove the entry under the
lock, then stop and clean the removed session outside the lock. -/
def stopCaptureForPodKey (termDelay : Nat → Nat) (exited : Nat → Bool)
    (s : CState) (key : String) : CState × List Ev :=
  match mapLookup s.captures key with
  | some sp =>
    (⟨mapErase s.captures key⟩,
      [.lock, .unlock] ++ stopCaptureProcess termDelay exited sp)
  | none => (s, [.lock, .unlock])

/-- `startCapture` (part_003:113-144): require a pod IP, spawn tcpdump
outside the lock, then register the session (storing `maxFiles` and the
cleanup glob) under the lock. -/
def startCapture (s : CState) (pod : Pod) (maxFiles : Int)
    (freshSid : Nat) (spawnOk : Bool) : CState × List Ev :=
  if pod.podIP = "" then (s, [])
  else if spawnOk then
    (⟨mapInsert s.captures (podKey pod)
        ⟨freshSid, maxFiles, captureFile pod ++ "*"⟩⟩,
      [.spawn freshSid (tcpdumpArgs pod maxFiles), .lock, .unlock])
  else (s, [.spawnFailed freshSid])

/-- `onPodAddOrUpdate` (part_003:82-111): absent or invalid annotation →
stop; same `maxFiles` → no-op; different `maxFiles` → remove the old entry
under the lock, stop and clean it, then start a new session. -/
def onPodAddOrUpdate (termDelay : Nat → Nat) (exited : Nat → Bool)
    (s : CState) (pod : Pod) (freshSid : Nat) (spawnOk : Bool) :
    CState × List Ev :=
  let key := podKey pod
  let ann := annotationOf pod
  if ann = "" then stopCaptureForPodKey termDelay exited s key
  else
    match goAtoi ann with
    | none => stopCaptureForPodKey termDelay exited s key
    | some n =>
      if n ≤ 0 then stopCaptureForPodKey termDelay exited s key
      else
        match mapLookup s.captures key with
        | some ex =>
          if ex.maxFiles = n then (s, [.lock, .unlock])
          else
            let s1 : CState := ⟨mapErase s.captures key⟩
            let stopTr := stopCaptureProcess termDelay exited ex
            let r := startCapture s1 pod n freshSid spawnOk
            (r.1, [.lock, .unlock] ++ stopTr ++ r.2)
        | none =>
          let r := startCapture s pod n freshSid spawnOk
          (r.1, [.lock, .unlock] ++ r.2)

end Part003

namespace MainB

/-- `captureProcess` of the second document inside
`src/antrea-capture/main.go` (nsenter variant): the running command, whose
arguments carry `maxFiles` and the output file derived from `podName`. -/
structure captureProcess where
  sid : Nat
  maxFiles : Int
  podName : String
  deriving DecidableEq, Repr

/-- Controller state of the nsenter variant. -/
structure CState where
  captures : List (String × captureProcess)
  deriving DecidableEq, Repr

/-- Grace period of its `stopCaptureInternal`: `3 * time.Second`. -/
def gracePeriod : Nat := 3

/-- `fmt.Sprintf("/capture-%s.pcap", pod.Name)`. -/
def captureFile (podName : String) : String := "/capture-" ++ podName ++ ".pcap"

/-- nsenter + tcpdump argument list of `startCaptureInternal`. -/
def nsenterArgs (pid : Nat) (maxFiles : Int) (podName : String) : List String :=
  ["nsenter", "-t", toString pid, "-n", "--", "tcpdump", "-i", "any", "-U",
   "-C", "1", "-W", toString maxFiles, "-w", captureFile podName, "-Z", "root"]

/-- Signal/wait events of its `stopCaptureInternal`: SIGTERM to the group,
3s bounded wait, then SIGKILL and unbounded wait. -/
def stopEvs (termDelay : Nat → Nat) (sp : captureProcess) : List Ev :=
  if termDelay sp.sid ≤ gracePeriod then
    [.sigterm true sp.sid, .waitGrace sp.sid (termDelay sp.sid), .exitConfirmed sp.sid]
  else
    [.sigterm true sp.sid, .waitGrace sp.sid gracePeriod, .sigkill true sp.sid,
     .waitBlock sp.sid, .exitConfirmed sp.sid]

/-- Its `stopCaptureInternal`: termination protocol, delete the entry,
clean files matching `/capture-<name>.pcap*`. -/
def stopCaptureInternal (termDelay : Nat → Nat) (s : CState) (key : String)
    (sp : captureProcess) : CState × List Ev :=
  (⟨mapErase s.captures key⟩,
    stopEvs termDelay sp ++ [.cleanGlob ("/capture-" ++ lastSegment key ++ ".pcap*")])

/-- Its `stopCapture`: under the lock, stop the looked-up session if any. -/
def stopCapture (termDelay : Nat → Nat) (s : CState) (key : String) :
    CState × List Ev :=
  match mapLookup s.captures key with
  | none => (s, [.lock, .unlock])
  | some sp =>
    let r := stopCaptureInternal termDelay s key sp
    (r.1, [.lock] ++ r.2 ++ [.unlock])

/-- Its `startCaptureInternal`: resolve the pod's PID (`findPid`, may
fail), spawn nsenter+tcpdump, register on success. -/
def startCaptureInternal (s : CState) (pod : Pod) (maxFiles : Int)
    (resolvedPid : Option Nat) (freshSid : Nat) (spawnOk : Bool) :
    CState × List Ev :=
  match resolvedPid with
  | none => (s, [])
  | some pid =>
    if spawnOk then
      (⟨mapInsert s.captures (podKey pod) ⟨freshSid, maxFiles, pod.name⟩⟩,
        [.spawn freshSid (nsenterArgs pid maxFiles pod.name)])
    else (s, [.spawnFailed freshSid])

/-- Its `processPod` (main.go:134-151): empty annotation → stop; parse
failure or non-positive value → log and return **without stopping**;
otherwise, under the lock, start a session if the key is unoccupied. -/
def processPod (termDelay : Nat → Nat) (s : CState) (pod : Pod)
    (resolvedPid : Option Nat) (freshSid : Nat) (spawnOk : Bool) :
    CState × List Ev :=
  let key := podKey pod
  let ann := annotationOf pod
  if ann = "" then stopCapture termDelay s key
  else
    match goAtoi ann with
    | none => (s, [])
    | some n =>
      if n ≤ 0 then (s, [])
      else
        match mapLookup s.captures key with
        | some _ => (s, [.lock, .unlock])
        | none =>
          let r := startCaptureInternal s pod n resolvedPid freshSid spawnOk
          (r.1, [.lock] ++ r.2 ++ [.unlock])

end MainB

theorem mapLookup_insert {α : Type} (m : List (String × α)) (k : String) (v : α) :
    mapLookup (mapInsert m k v) k = some v := by
  simp [mapInsert, mapLookup]

theorem mapLookup_erase {α : Type} (m : List (String × α)) (k : String) :
    mapLookup (mapErase m k) k = none := by
  induction m with
  | nil => rfl
  | cons a tl ih =>
    by_cases h : a.1 = k
    · simpa [mapErase, List.filter, h] using ih
    · simpa [mapErase, List.filter, h, mapLookup] using ih

theorem countKey_erase {α : Type} (m : List (String × α)) (k : String) :
    countKey (mapErase m k) k = 0 := by
  induction m with
  | nil => rfl
  | cons a tl ih =>
    by_cases h : a.1 = k
    · simpa [countKey, mapErase, List.filter, h] using ih
    · simpa [countKey, mapErase, List.filter, h] using ih

theorem countKey_insert {α : Type} (m : List (String × α)) (k : String) (v : α) :
    countKey (mapInsert m k v) k = 1 := by
  have h := countKey_erase (α := α) m k
  simp only [countKey] at h ⊢
  simp [mapInsert, List.filter_cons, h]

theorem goAtoi_empty : goAtoi "" = none := by decide

theorem annotationOf_strip (pod : Pod) : annotationOf (stripAnnot pod) = "" := by
  simp [annotationOf, stripAnnot, mapLookup_erase]

theorem totalDur_append (a b : List Ev) : totalDur (a ++ b) = totalDur a + totalDur b := by
  simp [totalDur]

theorem countClean_append (a b : List Ev) :
    countClean (a ++ b) = countClean a + countClean b := by
  induction a with
  | nil => simp [countClean]
  | cons e tl ih => cases e <;> simp [countClean, ih] <;> omega

theorem countExit_append (a b : List Ev) :
    countExit (a ++ b) = countExit a + countExit b := by
  induction a with
  | nil => simp [countExit]
  | cons e tl ih => cases e <;> simp [countExit, ih] <;> omega

theorem totalDur_stopEvs (termDelay : Nat → Nat) (sp : Controller.captureProcess) :
    totalDur (Controller.stopEvs termDelay sp)
      = min (termDelay sp.sid) Controller.gracePeriod := by
  by_cases h : termDelay sp.sid ≤ Controller.gracePeriod <;>
    simp [Controller.stopEvs, h, totalDur, evDur] <;> omega

theorem countClean_stopEvs (termDelay : Nat → Nat) (sp : Controller.captureProcess) :
    countClean (Controller.stopEvs termDelay sp) = 0 := by
  by_cases h : termDelay sp.sid ≤ Controller.gracePeriod <;>
    simp [Controller.stopEvs, h, countClean]

theorem countExit_stopEvs (termDelay : Nat → Nat) (sp : Controller.captureProcess) :
    countExit (Controller.stopEvs termDelay sp) = 1 := by
  by_cases h : termDelay sp.sid ≤ Controller.gracePeriod <;>
    simp [Controller.stopEvs, h, countExit]

theorem shutdownLoop_stats (termDelay : Nat → Nat) :
    ∀ (l : List (String × Controller.captureProcess)) (s : Controller.CState),
    totalDur (Controller.shutdownLoop termDelay l s).2
        = (l.map (fun kv => min (termDelay kv.2.sid) Controller.gracePeriod)).sum
    ∧ countClean (Controller.shutdownLoop termDelay l s).2 = l.length
    ∧ countExit (Controller.shutdownLoop termDelay l s).2 = l.length := by
  intro l
  induction l with
  | nil => intro s; simp [Controller.shutdownLoop, totalDur, countClean, countExit]
  | cons kv tl ih =>
    intro s
    obtain ⟨ih1, ih2, ih3⟩ := ih ⟨mapErase s.captures kv.1⟩
    have e1 : (Controller.shutdownLoop termDelay (kv :: tl) s).2
        = (Controller.stopEvs termDelay kv.2
            ++ [Ev.cleanGlob (Controller.cleanupPattern kv.1)])
          ++ (Controller.shutdownLoop termDelay tl ⟨mapErase s.captures kv.1⟩).2 := rfl
    refine ⟨?_, ?_, ?_⟩
    · rw [e1, totalDur_append, totalDur_append, ih1, totalDur_stopEvs]
      simp [totalDur, evDur]
    · rw [e1, countClean_append, countClean_append, ih2, countClean_stopEvs]
      simp [countClean]
      omega
    · rw [e1, countExit_append, countExit_append, ih3, countExit_stopEvs]
      simp [countExit]
      omega

theorem shutdownLoop_state (termDelay : Nat → Nat) :
    ∀ (l : List (String × Controller.captureProcess)) (s : Controller.CState),
    (Controller.shutdownLoop termDelay l s).1.captures
      = l.foldl (fun m kv => mapErase m kv.1) s.captures := by
  intro l
  induction l with
  | nil => intro s; rfl
  | cons kv tl ih =>
    intro s
    simpa [Controller.shutdownLoop, Controller.stopCaptureInternal] using
      ih ⟨mapErase s.captures kv.1⟩

theorem foldl_erase_self {α : Type} :
    ∀ (l m : List (String × α)), (∀ kv ∈ m, kv.1 ∈ l.map Prod.fst) →
    l.foldl (fun acc kv => mapErase acc kv.1) m = [] := by
  intro l
  induction l with
  | nil =>
    intro m h
    match m, h with
    | [], _ => rfl
    | kv :: tl, h => exact absurd (h kv (List.mem_cons_self kv tl)) (by simp)
  | cons a tl ih =>
    intro m h
    simp only [List.foldl_cons]
    refine ih (mapErase m a.1) ?_
    intro kv hkv
    rw [mapErase, List.mem_filter] at hkv
    have h1 := h kv hkv.1
    have h2 : kv.1 ≠ a.1 := by simpa using hkv.2
    simp only [List.map_cons, List.mem_cons] at h1
    exact h1.resolve_left h2

/-! Concrete fixtures used by counterexamples and witnesses. -/

/-- A pod `ns/p` annotated with `"3"`. -/
def podP3 : Pod := ⟨"ns", "p", [(annotationKey, "3")], "10.0.0.9"⟩

/-- The same pod annotated with `"5"`. -/
def podP5 : Pod := ⟨"ns", "p", [(annotationKey, "5")], "10.0.0.9"⟩

/-- The same pod with a malformed annotation. -/
def podPBad : Pod := ⟨"ns", "p", [(annotationKey, "abc")], "10.0.0.9"⟩

/-- A registry holding one session (instance 1, maxFiles 3) for `ns/p`. -/
def sOne : Controller.CState := ⟨[("ns/p", ⟨1, 3, "p"⟩)]⟩

/-- A registry where the key `ns/p` is occupied by a newer session,
process instance 2, which replaced instance 1. -/
def sTwo : Controller.CState := ⟨[("ns/p", ⟨2, 3, "p"⟩)]⟩

/-- Environment where every process ignores SIGTERM for 100s. -/
def envStubborn : Nat → Nat := fun _ => 100

/-- Environment where every process exits immediately on SIGTERM. -/
def envFast : Nat → Nat := fun _ => 0

/-- C1: the spec requires the monitor of a superseded process to leave a
newer Session at the same key alone, but `monitorExit` (the goroutine in
controller.go:188-193) deletes the registry entry for its key
unconditionally: with the key occupied by newer instance 2, the monitor of
stale instance 1 removes it, while the spec-modelled guarded removal
leaves the registry unchanged. -/
theorem c1_stale_monitor_deletes_newer_session :
    mapLookup sTwo.captures "ns/p" = some ⟨2, 3, "p"⟩
    ∧ (1 : Nat) ≠ 2
    ∧ (Controller.monitorExit sTwo "ns/p" 1).1.captures = []
    ∧ Controller.monitorExitSpec sTwo "ns/p" 1 = sTwo := by
  decide

/-- C4: the registry lock is in fact held across blocking operations:
`stopCapture` runs the whole grace-period wait of `stopCaptureInternal`
between taking and releasing the lock, and `processPod` runs the
`cmd.Start()` spawn of `startCaptureInternal` under the lock. -/
theorem c4_lock_held_across_wait_and_spawn :
    existsUnderLock isWait 0 (Controller.stopCapture envStubborn sOne "ns/p").2 = true
    ∧ existsUnderLock isSpawn 0
        (Controller.processPod envFast ⟨[]⟩ podP3 7 true).2 = true := by
  decide

/-- C5 counterexample: for a Session whose process exits on its own, the
monitor (controller.go:188-193) confirms the exit and removes the registry
entry but never invokes the artifact cleaner — zero cleanups, not exactly
one. -/
theorem c5_self_exit_runs_no_cleaner :
    countClean (Controller.monitorExit sOne "ns/p" 1).2 = 0
    ∧ Ev.exitConfirmed 1 ∈ (Controller.monitorExit sOne "ns/p" 1).2
    ∧ (Controller.monitorExit sOne "ns/p" 1).1.captures = [] := by
  decide

/-- C5 amended: for Sessions terminated through the stop protocol
(`stopCaptureInternal`), the artifact cleaner runs exactly once, strictly
after the process exit has been confirmed; self-exited Sessions are merely
removed from the registry (see the counterexample). -/
theorem c5_stop_protocol_cleans_once_after_exit (termDelay : Nat → Nat)
    (s : Controller.CState) (key : String) (sp : Controller.captureProcess) :
    ∃ pre, (Controller.stopCaptureInternal termDelay s key sp).2
        = pre ++ [Ev.cleanGlob (Controller.cleanupPattern key)]
      ∧ countExit pre = 1 ∧ countClean pre = 0 := by
  exact ⟨Controller.stopEvs termDelay sp, rfl,
    countExit_stopEvs termDelay sp, countClean_stopEvs termDelay sp⟩

/-- C10: an update event whose old and new annotation values are equal is
ignored entirely by `handlePodUpdate`: the registry is untouched and no
signal, spawn, wait or cleanup happens, whatever else changed in the pod
and whatever the current registry state is (in particular after the
capture process already exited on its own). -/
theorem c10_unchanged_annotation_noop (termDelay : Nat → Nat)
    (s : Controller.CState) (oldPod newPod : Pod) (freshSid : Nat)
    (spawnOk : Bool) (h : annotationOf oldPod = annotationOf newPod) :
    Controller.handlePodUpdate termDelay s oldPod newPod freshSid spawnOk
      = (s, []) := by
  simp [Controller.handlePodUpdate, h]

/-- Resync update for `ns/p`: annotation `"3"` unchanged, another field
differs. -/
def podUpdOld : Pod := ⟨"ns", "p", [(annotationKey, "3"), ("phase", "Running")], "10.0.0.9"⟩

/-- New version of the same pod with the annotation value unchanged. -/
def podUpdNew : Pod := ⟨"ns", "p", [(annotationKey, "3"), ("phase", "Done")], "10.0.0.9"⟩

/-- C10 witness: concrete resync after the capture self-exited (empty
registry); the update changes another field but not the annotation, and
nothing happens — in particular the self-exited capture is not
restarted. -/
theorem c10_unchanged_annotation_noop_witness :
    annotationOf podUpdOld = annotationOf podUpdNew
    ∧ Controller.handlePodUpdate envFast ⟨[]⟩ podUpdOld podUpdNew 7 true
        = (⟨[]⟩, []) :=
  ⟨by decide,
    c10_unchanged_annotation_noop envFast ⟨[]⟩ podUpdOld podUpdNew 7 true (by decide)⟩

/-- C8: delivering a valid "desired present" event for an unoccupied key
registers exactly one session, and a second delivery of the same event
finds the key occupied and performs no action (registry unchanged, only
the lock is taken and released). -/
theorem c8_replay_creates_one_session (termDelay : Nat → Nat)
    (s : Controller.CState) (pod : Pod) (n : Int) (sid1 sid2 : Nat)
    (hann : goAtoi (annotationOf pod) = some n) (hpos : 0 < n)
    (hnone : mapLookup s.captures (podKey pod) = none) :
    mapLookup (Controller.processPod termDelay s pod sid1 true).1.captures
        (podKey pod) = some ⟨sid1, n, pod.name⟩
    ∧ countKey (Controller.processPod termDelay s pod sid1 true).1.captures
        (podKey pod) = 1
    ∧ Controller.processPod termDelay
          (Controller.processPod termDelay s pod sid1 true).1 pod sid2 true
        = ((Controller.processPod termDelay s pod sid1 true).1,
           [Ev.lock, Ev.unlock]) := by
  have hne : annotationOf pod ≠ "" := by
    intro h
    rw [h, goAtoi_empty] at hann
    exact Option.noConfusion hann
  have hle : ¬ n ≤ 0 := by omega
  have h1 : (Controller.processPod termDelay s pod sid1 true).1
      = ⟨mapInsert s.captures (podKey pod) ⟨sid1, n, pod.name⟩⟩ := by
    simp [Controller.processPod, hne, hann, hle, hnone,
      Controller.startCaptureInternal]
  rw [h1]
  refine ⟨mapLookup_insert _ _ _, countKey_insert _ _ _, ?_⟩
  simp [Controller.processPod, hne, hann, hle, mapLookup_insert]

/-- C8 witness: replaying the add of pod `ns/p` annotated `"3"` on an
empty registry. -/
theorem c8_replay_creates_one_session_witness :
    goAtoi (annotationOf podP3) = some 3
    ∧ mapLookup (Controller.CState.mk []).captures (podKey podP3) = none
    ∧ countKey (Controller.processPod envFast ⟨[]⟩ podP3 1 true).1.captures
        (podKey podP3) = 1 :=
  ⟨by decide, by decide,
    (c8_replay_creates_one_session envFast ⟨[]⟩ podP3 3 1 2 (by decide)
      (by decide) (by decide)).2.1⟩

/-- C2 counterexample: with session instance 1 (`maxFiles = 3`) registered
for `ns/p` and an event carrying annotation `"5"`, the primary reconciler
`processPod` (controller.go:157-166) neither stops nor restarts anything:
it sees the key occupied and returns, leaving the old session and spec in
place — not the claimed stop-and-start. -/
theorem c2_primary_ignores_spec_change :
    mapLookup sOne.captures "ns/p" = some ⟨1, 3, "p"⟩
    ∧ annotationOf podP5 = "5"
    ∧ Controller.processPod envFast sOne podP5 9 true
        = (sOne, [Ev.lock, Ev.unlock]) := by
  decide

/-- C2 amended: only the part_003 reconciler (`onPodAddOrUpdate`) performs
the claimed replacement: when the key holds a session with a different
`maxFiles`, it removes the old entry, stops and cleans the old session,
then starts and registers a new session with the new spec — the primary
`processPod` leaves the existing session untouched (see the
counterexample). -/
theorem c2_part003_spec_change_replaces (termDelay : Nat → Nat)
    (exited : Nat → Bool) (s : Part003.CState) (pod : Pod) (n : Int)
    (freshSid : Nat) (ex : Part003.captureProcess)
    (hann : goAtoi (annotationOf pod) = some n) (hpos : 0 < n)
    (hex : mapLookup s.captures (podKey pod) = some ex)
    (hdiff : ¬ ex.maxFiles = n) (hip : ¬ pod.podIP = "") :
    mapLookup (Part003.onPodAddOrUpdate termDelay exited s pod freshSid true).1.captures
        (podKey pod) = some ⟨freshSid, n, Part003.captureFile pod ++ "*"⟩
    ∧ countKey (Part003.onPodAddOrUpdate termDelay exited s pod freshSid true).1.captures
        (podKey pod) = 1
    ∧ ∃ t1 t2, (Part003.onPodAddOrUpdate termDelay exited s pod freshSid true).2
          = t1 ++ t2
        ∧ Ev.cleanGlob ex.captureGlob ∈ t1
        ∧ Ev.spawn freshSid (Part003.tcpdumpArgs pod n) ∈ t2 := by
  have hne : annotationOf pod ≠ "" := by
    intro h
    rw [h, goAtoi_empty] at hann
    exact Option.noConfusion hann
  have hle : ¬ n ≤ 0 := by omega
  have h1 : Part003.onPodAddOrUpdate termDelay exited s pod freshSid true
      = (⟨mapInsert (mapErase s.captures (podKey pod)) (podKey pod)
            ⟨freshSid, n, Part003.captureFile pod ++ "*"⟩⟩,
         [Ev.lock, Ev.unlock]
           ++ Part003.stopCaptureProcess termDelay exited ex
           ++ [Ev.spawn freshSid (Part003.tcpdumpArgs pod n), Ev.lock, Ev.unlock]) := by
    simp [Part003.onPodAddOrUpdate, hne, hann, hle, hex, hdiff,
      Part003.startCapture, hip]
  rw [h1]
  refine ⟨mapLookup_insert _ _ _, countKey_insert _ _ _,
    [Ev.lock, Ev.unlock] ++ Part003.stopCaptureProcess termDelay exited ex,
    [Ev.spawn freshSid (Part003.tcpdumpArgs pod n), Ev.lock, Ev.unlock],
    by simp, ?_, by simp⟩
  simp [Part003.stopCaptureProcess]

/-- Part_003 registry holding session instance 1 with `maxFiles = 3` for
`ns/p`. -/
def s3One : Part003.CState := ⟨[("ns/p", ⟨1, 3, "/capture-ns-p.pcap*"⟩)]⟩

/-- Environment where no done channel is closed yet. -/
def exitedNone : Nat → Bool := fun _ => false

/-- C2 witness: concrete spec change 3 → 5 on the part_003 variant
replaces the session. -/
theorem c2_part003_spec_change_replaces_witness :
    goAtoi (annotationOf podP5) = some 5
    ∧ mapLookup s3One.captures (podKey podP5)
        = some ⟨1, 3, "/capture-ns-p.pcap*"⟩
    ∧ mapLookup (Part003.onPodAddOrUpdate envFast exitedNone s3One podP5 9 true).1.captures
        (podKey podP5) = some ⟨9, 5, Part003.captureFile podP5 ++ "*"⟩ :=
  ⟨by decide, by decide,
    (c2_part003_spec_change_replaces envFast exitedNone s3One podP5 5 9
      ⟨1, 3, "/capture-ns-p.pcap*"⟩ (by decide) (by decide) (by decide)
      (by decide) (by decide)).1⟩

/-- Five registered sessions, as in the spec's shutdown scenario. -/
def sFive : Controller.CState :=
  ⟨[("ns/a", ⟨1, 2, "a"⟩), ("ns/b", ⟨2, 2, "b"⟩), ("ns/c", ⟨3, 2, "c"⟩),
    ("ns/d", ⟨4, 2, "d"⟩), ("ns/e", ⟨5, 2, "e"⟩)]⟩

/-- Environment where sessions 4 and 5 ignore the graceful signal and the
other three exit immediately. -/
def envTwoStubborn : Nat → Nat := fun sid => if sid ≤ 3 then 0 else 100

/-- C3 counterexample: shutting down five sessions of which two ignore
SIGTERM takes two full grace periods with the sequential `Shutdown` of
controller.go:97-110 — visibly more than the claimed bound of
approximately one grace period. -/
theorem c3_serial_drain_exceeds_one_grace :
    totalDur (Controller.Shutdown envTwoStubborn sFive).2
        = 2 * Controller.gracePeriod
    ∧ ¬ totalDur (Controller.Shutdown envTwoStubborn sFive).2
        ≤ Controller.gracePeriod := by
  decide

/-- C3 amended: `Shutdown` stops and cleans every registered session and
returns only after each completed (one cleanup and one confirmed exit per
session, registry empty afterwards), but it does so sequentially under
the registry lock: the total drain time is the **sum** of the individual
stop times `min (termDelay, gracePeriod)`, not a concurrent drain bounded
by one grace period. -/
theorem c3_shutdown_sequential_drain (termDelay : Nat → Nat)
    (s : Controller.CState) :
    totalDur (Controller.Shutdown termDelay s).2
        = (s.captures.map
            (fun kv => min (termDelay kv.2.sid) Controller.gracePeriod)).sum
    ∧ countClean (Controller.Shutdown termDelay s).2 = s.captures.length
    ∧ countExit (Controller.Shutdown termDelay s).2 = s.captures.length
    ∧ (Controller.Shutdown termDelay s).1.captures = [] := by
  obtain ⟨h1, h2, h3⟩ := shutdownLoop_stats termDelay s.captures s
  have e : (Controller.Shutdown termDelay s).2
      = [Ev.lock] ++ (Controller.shutdownLoop termDelay s.captures s).2
        ++ [Ev.unlock] := rfl
  refine ⟨?_, ?_, ?_, ?_⟩
  · rw [e, totalDur_append, totalDur_append, h1]
    simp [totalDur, evDur]
  · rw [e, countClean_append, countClean_append, h2]
    simp [countClean]
  · rw [e, countExit_append, countExit_append, h3]
    simp [countExit]
  · have e2 : (Controller.Shutdown termDelay s).1
        = (Controller.shutdownLoop termDelay s.captures s).1 := rfl
    rw [e2, shutdownLoop_state termDelay s.captures s]
    exact foldl_erase_self s.captures s.captures
      (fun kv hkv => List.mem_map_of_mem Prod.fst hkv)

/-- C6: the stop protocol of `stopCaptureInternal` — first event is a
graceful SIGTERM to the whole process group; it waits the bounded grace
time; a SIGKILL (to the group) and the unbounded post-kill wait happen
exactly when the process outlives the grace period; the exit is confirmed
exactly once, and the confirmation precedes the final cleanup step, so
the function returns only after the exit is confirmed. -/
theorem c6_stop_protocol_escalation (termDelay : Nat → Nat)
    (s : Controller.CState) (key : String) (sp : Controller.captureProcess) :
    ((Controller.stopCaptureInternal termDelay s key sp).2).head?
        = some (Ev.sigterm true sp.sid)
    ∧ Ev.waitGrace sp.sid (min (termDelay sp.sid) Controller.gracePeriod)
        ∈ (Controller.stopCaptureInternal termDelay s key sp).2
    ∧ countExit (Controller.stopCaptureInternal termDelay s key sp).2 = 1
    ∧ countKill (Controller.stopCaptureInternal termDelay s key sp).2
        = (if termDelay sp.sid ≤ Controller.gracePeriod then 0 else 1)
    ∧ countBlock (Controller.stopCaptureInternal termDelay s key sp).2
        = (if termDelay sp.sid ≤ Controller.gracePeriod then 0 else 1)
    ∧ (if termDelay sp.sid ≤ Controller.gracePeriod then True
        else Ev.sigkill true sp.sid
          ∈ (Controller.stopCaptureInternal termDelay s key sp).2)
    ∧ ∃ pre, (Controller.stopCaptureInternal termDelay s key sp).2
          = pre ++ [Ev.cleanGlob (Controller.cleanupPattern key)]
        ∧ countExit pre = 1 := by
  by_cases h : termDelay sp.sid ≤ Controller.gracePeriod
  · have hmin : min (termDelay sp.sid) Controller.gracePeriod
        = termDelay sp.sid := by
      simp [Controller.gracePeriod] at h ⊢
      omega
    have e : (Controller.stopCaptureInternal termDelay s key sp).2
        = [Ev.sigterm true sp.sid, Ev.waitGrace sp.sid (termDelay sp.sid),
           Ev.exitConfirmed sp.sid,
           Ev.cleanGlob (Controller.cleanupPattern key)] := by
      simp [Controller.stopCaptureInternal, Controller.stopEvs, h]
    rw [e, hmin]
    refine ⟨rfl, by simp, rfl, ?_, ?_, ?_,
      [Ev.sigterm true sp.sid, Ev.waitGrace sp.sid (termDelay sp.sid),
       Ev.exitConfirmed sp.sid], rfl, rfl⟩
    · simp [h]
      rfl
    · simp [h]
      rfl
    · simp [h]
  · have hmin : min (termDelay sp.sid) Controller.gracePeriod
        = Controller.gracePeriod := by
      simp [Controller.gracePeriod] at h ⊢
      omega
    have e : (Controller.stopCaptureInternal termDelay s key sp).2
        = [Ev.sigterm true sp.sid, Ev.waitGrace sp.sid Controller.gracePeriod,
           Ev.sigkill true sp.sid, Ev.waitBlock sp.sid,
           Ev.exitConfirmed sp.sid,
           Ev.cleanGlob (Controller.cleanupPattern key)] := by
      simp [Controller.stopCaptureInternal, Controller.stopEvs, h]
    rw [e, hmin]
    refine ⟨rfl, by simp, rfl, ?_, ?_, ?_,
      [Ev.sigterm true sp.sid, Ev.waitGrace sp.sid Controller.gracePeriod,
       Ev.sigkill true sp.sid, Ev.waitBlock sp.sid,
       Ev.exitConfirmed sp.sid], rfl, rfl⟩
    · simp [h]
      rfl
    · simp [h]
      rfl
    · simp [h]

/-- The nsenter-variant registry holding one session for `ns/p`. -/
def sOneB : MainB.CState := ⟨[("ns/p", ⟨1, 3, "p"⟩)]⟩

/-- C9 counterexample: in the nsenter variant embedded in main.go
(`MainB.processPod`, main.go:141-145), a malformed annotation is **not**
handled like annotation removal: it returns without any action, leaving
the existing session registered and running, whereas the removal event
stops the session and empties the registry. -/
theorem c9_mainB_invalid_leaves_session_running :
    MainB.processPod envFast sOneB podPBad none 9 true = (sOneB, [])
    ∧ (MainB.processPod envFast sOneB (stripAnnot podPBad) none 9 true).1.captures
        = []
    ∧ sOneB.captures ≠ [] := by
  decide

/-- C9 amended: in the primary controller (`processPod`,
controller.go:150-155) a parse failure or non-positive annotation value is
handled exactly like annotation removal — both reduce to the same
`stopCapture` call, which stops any existing session for the key, cleans
its artifacts and starts nothing; the nsenter variant inside main.go
instead returns without stopping (see the counterexample). -/
theorem c9_primary_invalid_equals_removal (termDelay : Nat → Nat)
    (s : Controller.CState) (pod : Pod) (freshSid : Nat) (spawnOk : Bool)
    (hne : annotationOf pod ≠ "")
    (hbad : goAtoi (annotationOf pod) = none
      ∨ ∃ n, goAtoi (annotationOf pod) = some n ∧ n ≤ 0) :
    Controller.processPod termDelay s pod freshSid spawnOk
        = Controller.stopCapture termDelay s (podKey pod)
    ∧ Controller.processPod termDelay s (stripAnnot pod) freshSid spawnOk
        = Controller.stopCapture termDelay s (podKey pod) := by
  constructor
  · rcases hbad with h | ⟨n, h, hle⟩
    · simp [Controller.processPod, hne, h]
    · simp [Controller.processPod, hne, h, hle]
  · have h0 := annotationOf_strip pod
    have hk : podKey (stripAnnot pod) = podKey pod := rfl
    simp [Controller.processPod, h0, hk]

/-- C9 witness: the malformed annotation `"abc"` on `ns/p`, with a session
registered, is processed exactly as a removal would be. -/
theorem c9_primary_invalid_equals_removal_witness :
    annotationOf podPBad ≠ ""
    ∧ Controller.processPod envFast sOne podPBad 9 true
        = Controller.stopCapture envFast sOne (podKey podPBad) :=
  ⟨by decide,
    (c9_primary_invalid_equals_removal envFast sOne podPBad 9 true (by decide)
      (Or.inl (by decide))).1⟩

theorem chPrefix_self_append (l t : List Char) : chPrefix l (l ++ t) = true := by
  induction l with
  | nil => rfl
  | cons a as ih => simp [chPrefix, ih]

theorem takeWhile_no_slash (A B : List Char)
    (hA : A.all (fun c => c ≠ '/') = true) :
    (A ++ '/' :: B).takeWhile (fun c => c ≠ '/') = A := by
  induction A with
  | nil => simp [List.takeWhile]
  | cons a as ih =>
    simp only [List.all_cons, Bool.and_eq_true] at hA
    rw [List.cons_append, List.takeWhile_cons]
    simp only [hA.1, if_true]
    rw [ih hA.2]

theorem lastSegment_concat (nsp name : String)
    (h : name.data.all (fun c => c ≠ '/') = true) :
    lastSegment (nsp ++ "/" ++ name) = name := by
  obtain ⟨nl⟩ := nsp
  obtain ⟨ml⟩ := name
  have hdata : (String.mk nl ++ "/" ++ String.mk ml).data
      = (nl ++ ['/']) ++ ml := by
    simp [String.data_append]
  simp only [lastSegment, hdata]
  rw [List.reverse_append, List.reverse_append]
  simp only [List.reverse_cons, List.reverse_nil, List.nil_append,
    List.cons_append, List.append_nil]
  rw [takeWhile_no_slash ml.reverse _ (by simpa using h)]
  simp

/-- C7 counterexample: the capture file path is derived from the pod name
only, so the session of key `ns1/web` can produce the rotation file
`/capture-web.pcap1`, and the cleanup glob of the **different** key
`ns2/web` matches that very file: the artifact sets of same-named pods in
different namespaces are not disjoint. -/
theorem c7_cross_namespace_glob_overlap :
    ("ns1/web" : String) ≠ "ns2/web"
    ∧ producesFile (Controller.captureFile "web") "/capture-web.pcap1" = true
    ∧ globStarMatch (Controller.cleanupPatternBase "ns1/web")
        "/capture-web.pcap1" = true
    ∧ globStarMatch (Controller.cleanupPatternBase "ns2/web")
        "/capture-web.pcap1" = true := by
  decide

/-- C7 amended: the output path is derived deterministically from the pod
**name** alone, and the cleanup glob of a key does match every file that
key's session could have produced; but because the namespace is not part
of the path, the glob of any key with the same pod name is the very same
pattern, so same-named pods in different namespaces share — rather than
separate — their artifact sets (the part_003 variant includes the
namespace in the path). -/
theorem c7_name_only_artifact_paths (nsp name f : String)
    (hname : name.data.all (fun c => c ≠ '/') = true)
    (hf : producesFile (Controller.captureFile name) f = true) :
    globStarMatch (Controller.cleanupPatternBase (nsp ++ "/" ++ name)) f = true
    ∧ ∀ other : String,
        Controller.cleanupPatternBase (other ++ "/" ++ name)
          = Controller.cleanupPatternBase (nsp ++ "/" ++ name) := by
  have hbase : ∀ x : String, Controller.cleanupPatternBase (x ++ "/" ++ name)
      = Controller.captureFile name := by
    intro x
    simp [Controller.cleanupPatternBase, Controller.captureFile,
      lastSegment_concat x name hname]
  simp only [producesFile, Bool.and_eq_true] at hf
  refine ⟨?_, fun other => by rw [hbase, hbase]⟩
  rw [hbase]
  have hslash : ((f.data.drop (Controller.captureFile name).data.length).all
      (fun c => c ≠ '/')) = true := by
    rw [List.all_eq_true] at hf ⊢
    intro c hc
    have hd := hf.2 c hc
    by_cases hcs : c = '/'
    · rw [hcs] at hd
      exact absurd hd (by decide)
    · simpa using hcs
  show (chPrefix (Controller.captureFile name).data f.data
      && (f.data.drop (Controller.captureFile name).data.length).all
            (fun c => c ≠ '/')) = true
  rw [hf.1, hslash]
  rfl

/-- C7 witness: namespace `ns1`, pod name `web`, rotation file
`/capture-web.pcap1`. -/
theorem c7_name_only_artifact_paths_witness :
    ("web" : String).data.all (fun c => c ≠ '/') = true
    ∧ producesFile (Controller.captureFile "web") "/capture-web.pcap1" = true
    ∧ globStarMatch (Controller.cleanupPatternBase ("ns1" ++ "/" ++ "web"))
        "/capture-web.pcap1" = true :=
  ⟨by decide, by decide,
    (c7_name_only_artifact_paths "ns1" "web" "/capture-web.pcap1" (by decide)
      (by decide)).1⟩
